import Mathlib

/-!
Shallow embedding of src/geotool/tif_merge.py (a gdal_merge-style raster
mosaic tool) and proofs about its compositing, window-geometry and
planning logic.

Conventions of the embedding:
* World coordinates and raster sample values are rationals (the Python
  code computes with IEEE doubles; the claims under study only involve
  comparisons, min/max, truncation, floor and ceiling, for which the
  exact rational semantics coincides with the intended real-number
  reading of the code; the literals 0.1 and 0.5 become 1/10 and 1/2).
* A raster sample is either an ordinary number or NaN, because the
  nodata composite distinguishes NaN explicitly.  NaN compares unequal
  to everything, as in numpy.
* A band buffer is a total function from pixel coordinates to samples.
  ReadAsArray with output shape (t_xsize, t_ysize) hands the copy
  functions a source buffer already resampled onto the target pixel
  grid, so all buffers in the copy engine are indexed by target pixels.
* Fallible Python code (indexing an empty list) becomes Except.
-/

/-- A raster sample: numpy floating samples are either NaN or a value.
NaN must be distinguished because raster_copy_with_nodata branches on
Numeric.isnan. -/
inductive Sample where
  | nan : Sample
  | val : ℚ → Sample
deriving DecidableEq

/-- Numeric.isnan for one sample. -/
def Sample.isnan : Sample → Bool
  | .nan => true
  | .val _ => false

/-- Numeric.equal on two samples: IEEE equality, in which NaN is equal
to nothing (not even NaN). -/
def np_equal : Sample → Sample → Bool
  | .val a, .val b => a = b
  | _, _ => false

/-- Numeric.choose on a boolean index with two choices: index false
picks the first entry, index true the second. -/
def np_choose (test : Bool) (c0 c1 : Sample) : Sample :=
  if test then c1 else c0

/-- The per-pixel nodata test of raster_copy_with_nodata
(tif_merge.py lines 124-127): when the nodata value is not NaN the test
is Numeric.equal(data_src, nodata), otherwise Numeric.isnan(data_src). -/
def nodata_test (nodata src : Sample) : Bool :=
  if !nodata.isnan then np_equal src nodata
  else src.isnan

/-- A band buffer indexed by target pixel coordinates (col, row). -/
def Buf : Type := ℤ × ℤ → Sample

/-- The destination window (t_xoff, t_yoff, t_xsize, t_ysize) that a
copy call writes; WriteArray / WriteRaster touch exactly the pixels of
this window. -/
structure Window where
  xoff : ℤ
  yoff : ℤ
  xsize : ℤ
  ysize : ℤ
deriving DecidableEq

/-- Pixel membership in a write window. -/
def Window.mem (w : Window) (p : ℤ × ℤ) : Bool :=
  decide (w.xoff ≤ p.1) && decide (p.1 < w.xoff + w.xsize) &&
  decide (w.yoff ≤ p.2) && decide (p.2 < w.yoff + w.ysize)

/-- raster_copy_with_nodata (tif_merge.py lines 109-133): read the
source window resampled to the target shape (src), read the existing
destination window (the raster dst restricted to w), keep the
destination where the nodata test holds and take the source elsewhere,
and write the result back over the window.  Pixels outside the window
are untouched. -/
def raster_copy_with_nodata (nodata : Sample) (src : Buf) (w : Window)
    (dst : Buf) : Buf :=
  fun p =>
    if w.mem p then np_choose (nodata_test nodata (src p)) (src p) (dst p)
    else dst p

/-- raster_copy_with_mask (tif_merge.py lines 138-160): read source,
mask and destination buffers at matching windows; where the mask sample
equals 0 keep the destination, elsewhere take the source; write the
result over the window. -/
def raster_copy_with_mask (src mask : Buf) (w : Window) (dst : Buf) : Buf :=
  fun p =>
    if w.mem p then np_choose (np_equal (mask p) (Sample.val 0)) (src p) (dst p)
    else dst p

/-- The plain unconditional copy of tif_merge.py lines 96-104:
ReadRaster resampled to the target shape followed by WriteRaster over
the target window, overwriting whatever was there. -/
def raster_copy_plain (src : Buf) (w : Window) (dst : Buf) : Buf :=
  fun p => if w.mem p then src p else dst p

/-- gdal.GMF_ALL_VALID (the mask-flag value meaning every pixel valid). -/
def GMF_ALL_VALID : ℕ := 1

/-- gdal.GCI_AlphaBand (the color interpretation of an alpha band). -/
def GCI_AlphaBand : ℕ := 6

/-- The metadata and (resampled) contents of one source band as the
copy engine sees it: GetMaskFlags(), GetColorInterpretation(), the band
data and the mask band data. -/
structure BandSrc where
  maskFlags : ℕ
  colorInterp : ℕ
  data : Buf
  mask : Buf

/-- The m_band computation of raster_copy (tif_merge.py lines 83-89):
if the mask flags are not GMF_ALL_VALID the band's mask band is used;
otherwise, if the color interpretation is alpha, the band serves as its
own mask; otherwise there is no mask band. -/
def raster_copy_m_band (b : BandSrc) : Option Buf :=
  if b.maskFlags ≠ GMF_ALL_VALID then some b.mask
  else if b.colorInterp = GCI_AlphaBand then some b.data
  else none

/-- The three compositing strategies of the copy engine. -/
inductive Strategy where
  | with_nodata : Strategy
  | with_mask : Strategy
  | plain : Strategy
deriving DecidableEq

/-- Which strategy a raster_copy invocation dispatches to
(tif_merge.py lines 76-95): an explicit nodata argument first, then the
m_band test, then the plain copy. -/
def raster_copy_strategy (nodata : Option Sample) (b : BandSrc) : Strategy :=
  match nodata with
  | some _ => Strategy.with_nodata
  | none =>
    match raster_copy_m_band b with
    | some _ => Strategy.with_mask
    | none => Strategy.plain

/-- raster_copy (tif_merge.py lines 67-104) as a destination-raster
transformer: dispatch on the nodata argument and the m_band test to one
of the three strategies. -/
def raster_copy (nodata : Option Sample) (b : BandSrc) (w : Window)
    (dst : Buf) : Buf :=
  match nodata with
  | some nd => raster_copy_with_nodata nd b.data w dst
  | none =>
    match raster_copy_m_band b with
    | some m => raster_copy_with_mask b.data m w dst
    | none => raster_copy_plain b.data w dst

/-- One tile's contribution as it reaches raster_copy from the
run_merge copy loop: the source band (already resampled onto the target
grid) and the target window of its overlap. -/
structure MergeTile where
  band : BandSrc
  win : Window

/-- run_merge fixes nodata = None before its copy loop
(tif_merge.py line 319); this value is what lines 441 and 444 pass to
copy_into and hence to raster_copy. -/
def run_merge_nodata : Option Sample := none

/-- The copy loop of run_merge (tif_merge.py lines 427-446): the tiles
are folded over the destination raster in input-list order, each one
composited by raster_copy with the run_merge nodata argument. -/
def run_merge_copy_loop (tiles : List MergeTile) (init : Buf) : Buf :=
  tiles.foldl (fun r t => raster_copy run_merge_nodata t.band t.win r) init

/-- Python int() applied to a rational: truncation toward zero. -/
def pyInt (q : ℚ) : ℤ :=
  if 0 ≤ q then ⌊q⌋ else ⌈q⌉

/-- The metadata a file_info object records in init_from_name
(tif_merge.py lines 189-219): band count, raster size and the six
geotransform coefficients (gt2 and gt4 are the rotation terms, read but
never used by the merge math). -/
structure file_info where
  filename : String
  bands : ℕ
  xsize : ℤ
  ysize : ℤ
  gt0 : ℚ
  gt1 : ℚ
  gt2 : ℚ
  gt3 : ℚ
  gt4 : ℚ
  gt5 : ℚ
deriving DecidableEq

/-- self.ulx = geotransform[0] (line 208). -/
def file_info.ulx (fi : file_info) : ℚ := fi.gt0

/-- self.uly = geotransform[3] (line 209). -/
def file_info.uly (fi : file_info) : ℚ := fi.gt3

/-- self.lrx = ulx + geotransform[1] * xsize (line 210). -/
def file_info.lrx (fi : file_info) : ℚ := fi.gt0 + fi.gt1 * fi.xsize

/-- self.lry = uly + geotransform[5] * ysize (line 211). -/
def file_info.lry (fi : file_info) : ℚ := fi.gt3 + fi.gt5 * fi.ysize

/-- The target dataset as copy_into reads it: RasterXSize, RasterYSize
and GetGeoTransform() (tif_merge.py lines 248-252). -/
structure Dataset where
  xsize : ℤ
  ysize : ℤ
  gt0 : ℚ
  gt1 : ℚ
  gt2 : ℚ
  gt3 : ℚ
  gt4 : ℚ
  gt5 : ℚ
deriving DecidableEq

/-- t_lrx of copy_into line 251. -/
def Dataset.lrx (t : Dataset) : ℚ := t.gt0 + t.xsize * t.gt1

/-- t_lry of copy_into line 252. -/
def Dataset.lry (t : Dataset) : ℚ := t.gt3 + t.ysize * t.gt5

/-- tgw_ulx of copy_into line 255: max of the target and tile left
edges. -/
def overlap_ulx (fi : file_info) (t : Dataset) : ℚ :=
  max t.gt0 fi.ulx

/-- tgw_lrx of copy_into line 256: min of the target and tile right
edges. -/
def overlap_lrx (fi : file_info) (t : Dataset) : ℚ :=
  min t.lrx fi.lrx

/-- tgw_uly of copy_into lines 257-261: for a north-up target
(negative gt5) the min of the top edges, otherwise the max. -/
def overlap_uly (fi : file_info) (t : Dataset) : ℚ :=
  if t.gt5 < 0 then min t.gt3 fi.uly else max t.gt3 fi.uly

/-- tgw_lry of copy_into lines 257-262: for a north-up target the max
of the bottom edges, otherwise the min. -/
def overlap_lry (fi : file_info) (t : Dataset) : ℚ :=
  if t.gt5 < 0 then max t.lry fi.lry else min t.lry fi.lry

/-- tw_xoff of copy_into line 273: truncate with a +0.1 epsilon. -/
def tw_xoff_of (fi : file_info) (t : Dataset) : ℤ :=
  pyInt ((overlap_ulx fi t - t.gt0) / t.gt1 + 1/10)

/-- tw_yoff of copy_into line 274. -/
def tw_yoff_of (fi : file_info) (t : Dataset) : ℤ :=
  pyInt ((overlap_uly fi t - t.gt3) / t.gt5 + 1/10)

/-- tw_xsize of copy_into lines 275-276: truncate with a +0.5 bias,
minus the offset. -/
def tw_xsize_of (fi : file_info) (t : Dataset) : ℤ :=
  pyInt ((overlap_lrx fi t - t.gt0) / t.gt1 + 1/2) - tw_xoff_of fi t

/-- tw_ysize of copy_into lines 277-278. -/
def tw_ysize_of (fi : file_info) (t : Dataset) : ℤ :=
  pyInt ((overlap_lry fi t - t.gt3) / t.gt5 + 1/2) - tw_yoff_of fi t

/-- sw_xoff of copy_into line 284: plain truncation, with no epsilon. -/
def sw_xoff_of (fi : file_info) (t : Dataset) : ℤ :=
  pyInt ((overlap_ulx fi t - fi.gt0) / fi.gt1)

/-- sw_yoff of copy_into line 285. -/
def sw_yoff_of (fi : file_info) (t : Dataset) : ℤ :=
  pyInt ((overlap_uly fi t - fi.gt3) / fi.gt5)

/-- sw_xsize of copy_into lines 286-287. -/
def sw_xsize_of (fi : file_info) (t : Dataset) : ℤ :=
  pyInt ((overlap_lrx fi t - fi.gt0) / fi.gt1 + 1/2) - sw_xoff_of fi t

/-- sw_ysize of copy_into lines 288-289. -/
def sw_ysize_of (fi : file_info) (t : Dataset) : ℤ :=
  pyInt ((overlap_lry fi t - fi.gt3) / fi.gt5 + 1/2) - sw_yoff_of fi t

/-- The source and target pixel windows a successful copy_into hands to
raster_copy. -/
structure CopyWindows where
  sw_xoff : ℤ
  sw_yoff : ℤ
  sw_xsize : ℤ
  sw_ysize : ℤ
  tw_xoff : ℤ
  tw_yoff : ℤ
  tw_xsize : ℤ
  tw_ysize : ℤ
deriving DecidableEq

/-- copy_into (tif_merge.py lines 230-299), reduced to its geometry:
the returned integer is the Python return value (1 for the degenerate
no-op cases of lines 265-270, 280-281 and 291-292; 0, raster_copy's
return value, for an actual copy), and the optional CopyWindows records
the raster read/write that is performed, none meaning no raster access
at all. -/
def copy_into (fi : file_info) (t : Dataset) : ℤ × Option CopyWindows :=
  if overlap_ulx fi t ≥ overlap_lrx fi t then (1, none)
  else if t.gt5 < 0 ∧ overlap_uly fi t ≤ overlap_lry fi t then (1, none)
  else if t.gt5 > 0 ∧ overlap_uly fi t ≥ overlap_lry fi t then (1, none)
  else if tw_xsize_of fi t < 1 ∨ tw_ysize_of fi t < 1 then (1, none)
  else if sw_xsize_of fi t < 1 ∨ sw_ysize_of fi t < 1 then (1, none)
  else (0, some ⟨sw_xoff_of fi t, sw_yoff_of fi t,
                 sw_xsize_of fi t, sw_ysize_of fi t,
                 tw_xoff_of fi t, tw_yoff_of fi t,
                 tw_xsize_of fi t, tw_ysize_of fi t⟩)

/-- Modelled from the spec: the pixel-window offset formula the spec
states for both grids, trunc((worldUL - gridOrigin)/gridPixelSize + 0.1)
with the 0.1-pixel epsilon. -/
def specOffset (worldUL gridOrigin gridPixelSize : ℚ) : ℤ :=
  pyInt ((worldUL - gridOrigin) / gridPixelSize + 1/10)

/-- Modelled from the spec: the pixel-window size formula,
trunc((worldLR - gridOrigin)/gridPixelSize + 0.5) minus the offset. -/
def specSize (worldLR gridOrigin gridPixelSize : ℚ) (offset : ℤ) : ℤ :=
  pyInt ((worldLR - gridOrigin) / gridPixelSize + 1/2) - offset

/-- One step of the union-extent loop of run_merge
(tif_merge.py lines 352-356): running min of ulx and lry, running max
of uly and lrx.  The accumulator is (ulx, uly, lrx, lry). -/
def extent_step (e : ℚ × ℚ × ℚ × ℚ) (fi : file_info) : ℚ × ℚ × ℚ × ℚ :=
  (min e.1 fi.ulx, max e.2.1 fi.uly, max e.2.2.1 fi.lrx, min e.2.2.2 fi.lry)

/-- The union extent run_merge computes (tif_merge.py lines 347-356):
seeded from the first descriptor and folded over the whole list (the
source loop revisits the first element, which is idempotent for
min/max). -/
def run_merge_extent (f0 : file_info) (rest : List file_info) : ℚ × ℚ × ℚ × ℚ :=
  (f0 :: rest).foldl extent_step (f0.ulx, f0.uly, f0.lrx, f0.lry)

/-- psize_x = file_infos[0].geotransform[1] (tif_merge.py line 359). -/
def run_merge_psize_x (f0 : file_info) : ℚ := f0.gt1

/-- psize_y = file_infos[0].geotransform[5] (tif_merge.py line 360). -/
def run_merge_psize_y (f0 : file_info) : ℚ := f0.gt5

/-- xsize = int((lrx - ulx) / geotransform[1] + 0.5)
(tif_merge.py line 383), geotransform[1] being psize_x. -/
def run_merge_xsize (f0 : file_info) (rest : List file_info) : ℤ :=
  pyInt (((run_merge_extent f0 rest).2.2.1 - (run_merge_extent f0 rest).1) /
    run_merge_psize_x f0 + 1/2)

/-- ysize = int((lry - uly) / geotransform[5] + 0.5)
(tif_merge.py line 384), geotransform[5] being the signed psize_y. -/
def run_merge_ysize (f0 : file_info) (rest : List file_info) : ℤ :=
  pyInt (((run_merge_extent f0 rest).2.2.2 - (run_merge_extent f0 rest).2.1) /
    run_merge_psize_y f0 + 1/2)

/-- The bTargetAlignedPixels snap of run_merge (tif_merge.py lines
375-379) on an extent (ulx, uly, lrx, lry): ulx is floored and lrx
ceiled to multiples of psize_x, lry is floored and uly ceiled to
multiples of -psize_y. -/
def align_snap (psize_x psize_y : ℚ) (e : ℚ × ℚ × ℚ × ℚ) : ℚ × ℚ × ℚ × ℚ :=
  (⌊e.1 / psize_x⌋ * psize_x,
   ⌈e.2.1 / (-psize_y)⌉ * (-psize_y),
   ⌈e.2.2.1 / psize_x⌉ * psize_x,
   ⌊e.2.2.2 / (-psize_y)⌋ * (-psize_y))

/-- names_to_fileinfos (tif_merge.py lines 165-181): the opening of a
name (gdal.Open inside file_info.init_from_name) is the external
collaborator op, returning some descriptor on success and none when the
file cannot be opened; successfully opened names are appended in input
order. -/
def names_to_fileinfos (op : String → Option file_info)
    (names : List String) : List file_info :=
  names.foldl (fun acc name =>
    match op name with
    | some fi => acc ++ [fi]
    | none => acc) []

/-- The output geometry run_merge derives before creating the output
raster (tif_merge.py lines 347-391, with bTargetAlignedPixels False and
separate 0 as run_merge fixes them). -/
structure MosaicPlan where
  ulx : ℚ
  uly : ℚ
  lrx : ℚ
  lry : ℚ
  psize_x : ℚ
  psize_y : ℚ
  xsize : ℤ
  ysize : ℤ
  bands : ℕ
deriving DecidableEq

/-- The plan a non-empty descriptor list yields. -/
def mosaic_plan_of (f0 : file_info) (rest : List file_info) : MosaicPlan :=
  { ulx := (run_merge_extent f0 rest).1
    uly := (run_merge_extent f0 rest).2.1
    lrx := (run_merge_extent f0 rest).2.2.1
    lry := (run_merge_extent f0 rest).2.2.2
    psize_x := run_merge_psize_x f0
    psize_y := run_merge_psize_y f0
    xsize := run_merge_xsize f0 rest
    ysize := run_merge_ysize f0 rest
    bands := f0.bands }

/-- The planning step of run_merge (tif_merge.py lines 347-391).  On an
empty descriptor list the subscript file_infos[0] at line 347 raises
IndexError, which propagates to the caller before any output raster is
created; this fallible access is embedded as Except.error. -/
def run_merge_plan (fis : List file_info) : Except Unit MosaicPlan :=
  match fis with
  | [] => Except.error ()
  | f0 :: rest => Except.ok (mosaic_plan_of f0 rest)

/-- A constant buffer. -/
def sampleBuf (q : ℚ) : Buf := fun _ => Sample.val q

/-- Example tile with extent [0,10] x [0,10] at pixel size 1
(north-up). -/
def tileA : file_info :=
  ⟨"a.tif", 1, 10, 10, 0, 1, 0, 10, 0, -1⟩

/-- Example tile with extent [5,20] x [-5,10] at pixel size 1
(north-up). -/
def tileB : file_info :=
  ⟨"b.tif", 1, 15, 15, 5, 1, 0, 10, 0, -1⟩

/-- Example target dataset: 10 x 10 pixels, extent [0,10] x [0,10],
pixel size 1, north-up. -/
def targetD : Dataset :=
  ⟨10, 10, 0, 1, 0, 10, 0, -1⟩

/-- Example source tile whose grid sits 0.95 pixels left of the target
grid: extent [-0.95, 9.05] x [0,10], pixel size 1, north-up. -/
def fiShifted : file_info :=
  ⟨"s.tif", 1, 10, 10, -19/20, 1, 0, 10, 0, -1⟩

/-- Example source tile lying entirely to the right of targetD:
extent [100,105] x [5,10]. -/
def fiFar : file_info :=
  ⟨"f.tif", 1, 5, 5, 100, 1, 0, 10, 0, -1⟩

/-- Example source band with no mask and no alpha semantics (plain-copy
strategy), all samples 1. -/
def bandPlainA : BandSrc :=
  ⟨GMF_ALL_VALID, 0, sampleBuf 1, sampleBuf 1⟩

/-- Example source band with no mask and no alpha semantics, all
samples 2. -/
def bandPlainB : BandSrc :=
  ⟨GMF_ALL_VALID, 0, sampleBuf 2, sampleBuf 1⟩

/-- Example merge tile writing samples 1 over window (0,0) 2 x 2. -/
def mergeTileA : MergeTile := ⟨bandPlainA, ⟨0, 0, 2, 2⟩⟩

/-- Example merge tile writing samples 2 over window (1,1) 2 x 2. -/
def mergeTileB : MergeTile := ⟨bandPlainB, ⟨1, 1, 2, 2⟩⟩

/-- C1: in raster_copy_with_nodata, for every pixel of the copy window,
a source sample equal to the nodata value (or NaN when the nodata value
is NaN) leaves the pre-existing destination sample in place, any other
source sample replaces it, and a source tile that is the nodata
sentinel everywhere leaves every destination pixel unchanged. -/
theorem C1_nodata_composite (nodata : Sample) (src : Buf) (w : Window)
    (dst : Buf) (p : ℤ × ℤ) (hp : w.mem p = true) :
    (nodata.isnan = false → src p = nodata →
      raster_copy_with_nodata nodata src w dst p = dst p) ∧
    (nodata.isnan = false → src p ≠ nodata →
      raster_copy_with_nodata nodata src w dst p = src p) ∧
    (nodata.isnan = true → (src p).isnan = true →
      raster_copy_with_nodata nodata src w dst p = dst p) ∧
    (nodata.isnan = true → (src p).isnan = false →
      raster_copy_with_nodata nodata src w dst p = src p) ∧
    ((∀ q, src q = nodata) →
      ∀ q, raster_copy_with_nodata nodata src w dst q = dst q) := by
  refine ⟨fun hn he => ?_, fun hn he => ?_, fun hn he => ?_,
    fun hn he => ?_, fun hall q => ?_⟩
  · cases hnd : nodata with
    | nan => rw [hnd] at hn; simp [Sample.isnan] at hn
    | val b =>
      rw [hnd] at he
      simp [raster_copy_with_nodata, hp, nodata_test, hnd, he,
        Sample.isnan, np_equal, np_choose]
  · cases hnd : nodata with
    | nan => rw [hnd] at hn; simp [Sample.isnan] at hn
    | val b =>
      cases hs : src p with
      | nan =>
        simp [raster_copy_with_nodata, hp, nodata_test, hnd, hs,
          Sample.isnan, np_equal, np_choose]
      | val a =>
        rw [hnd, hs] at he
        have hab : a ≠ b := fun hab => he (by rw [hab])
        simp [raster_copy_with_nodata, hp, nodata_test, hnd, hs,
          Sample.isnan, np_equal, np_choose, hab]
  · cases hnd : nodata with
    | val b => rw [hnd] at hn; simp [Sample.isnan] at hn
    | nan =>
      cases hs : src p with
      | val a => rw [hs] at he; simp [Sample.isnan] at he
      | nan =>
        simp [raster_copy_with_nodata, hp, nodata_test, hnd, hs,
          Sample.isnan, np_choose]
  · cases hnd : nodata with
    | val b => rw [hnd] at hn; simp [Sample.isnan] at hn
    | nan =>
      cases hs : src p with
      | nan => rw [hs] at he; simp [Sample.isnan] at he
      | val a =>
        simp [raster_copy_with_nodata, hp, nodata_test, hnd, hs,
          Sample.isnan, np_choose]
  · by_cases hq : w.mem q = true
    · cases hnd : nodata with
      | nan =>
        simp [raster_copy_with_nodata, hq, nodata_test, hnd, hall q,
          Sample.isnan, np_choose]
      | val b =>
        simp [raster_copy_with_nodata, hq, nodata_test, hnd, hall q,
          Sample.isnan, np_equal, np_choose]
    · simp [raster_copy_with_nodata, hq]

/-- Witness for C1 at a concrete input: nodata 0, source all 0,
destination all 5; the destination sample 5 survives. -/
theorem C1_nodata_composite_witness :
    raster_copy_with_nodata (Sample.val 0) (sampleBuf 0) ⟨0, 0, 2, 2⟩
      (sampleBuf 5) (0, 0) = Sample.val 5 :=
  ((C1_nodata_composite (Sample.val 0) (sampleBuf 0) ⟨0, 0, 2, 2⟩
    (sampleBuf 5) (0, 0) (by decide)).1 rfl rfl).trans rfl

/-- C4: in raster_copy_with_mask, a pixel whose mask sample equals 0
keeps the existing destination value and a pixel whose mask sample is
anything other than 0 takes the source value, whatever the source
sample is: a strictly binary composite. -/
theorem C4_mask_composite (src mask : Buf) (w : Window) (dst : Buf)
    (p : ℤ × ℤ) (hp : w.mem p = true) :
    (mask p = Sample.val 0 →
      raster_copy_with_mask src mask w dst p = dst p) ∧
    (mask p ≠ Sample.val 0 →
      raster_copy_with_mask src mask w dst p = src p) := by
  constructor
  · intro hm
    simp [raster_copy_with_mask, hp, hm, np_equal, np_choose]
  · intro hm
    cases hms : mask p with
    | nan => simp [raster_copy_with_mask, hp, hms, np_equal, np_choose]
    | val a =>
      rw [hms] at hm
      have ha : a ≠ 0 := fun h0 => hm (by rw [h0])
      simp [raster_copy_with_mask, hp, hms, np_equal, np_choose, ha]

/-- Witness for C4 at a concrete input: mask 1 everywhere, source 7,
destination 5; the source wins. -/
theorem C4_mask_composite_witness :
    raster_copy_with_mask (sampleBuf 7) (sampleBuf 1) ⟨0, 0, 2, 2⟩
      (sampleBuf 5) (0, 0) = Sample.val 7 :=
  ((C4_mask_composite (sampleBuf 7) (sampleBuf 1) ⟨0, 0, 2, 2⟩
    (sampleBuf 5) (0, 0) (by decide)).2 (by decide)).trans rfl

/-- C5: raster_copy strategy precedence.  A supplied nodata argument
always selects the nodata-aware composite; with no nodata argument the
mask-aware composite runs exactly when the mask flags are not all-valid
or the color interpretation is alpha (the band being its own mask only
in the alpha case); the plain copy runs only when neither condition
holds. -/
theorem C5_strategy_precedence (nodata : Option Sample) (b : BandSrc)
    (w : Window) (dst : Buf) :
    (∀ nd, nodata = some nd →
      raster_copy_strategy nodata b = Strategy.with_nodata ∧
      raster_copy nodata b w dst = raster_copy_with_nodata nd b.data w dst) ∧
    (nodata = none →
      (raster_copy_strategy nodata b = Strategy.with_mask ↔
        (b.maskFlags ≠ GMF_ALL_VALID ∨ b.colorInterp = GCI_AlphaBand))) ∧
    (nodata = none → b.maskFlags ≠ GMF_ALL_VALID →
      raster_copy nodata b w dst = raster_copy_with_mask b.data b.mask w dst) ∧
    (nodata = none → b.maskFlags = GMF_ALL_VALID →
      b.colorInterp = GCI_AlphaBand →
      raster_copy nodata b w dst = raster_copy_with_mask b.data b.data w dst) ∧
    (nodata = none → b.maskFlags = GMF_ALL_VALID →
      b.colorInterp ≠ GCI_AlphaBand →
      raster_copy_strategy nodata b = Strategy.plain ∧
      raster_copy nodata b w dst = raster_copy_plain b.data w dst) := by
  refine ⟨fun nd hnd => ?_, fun hn => ?_, fun hn hm => ?_,
    fun hn hm ha => ?_, fun hn hm ha => ?_⟩
  · subst hnd
    exact ⟨rfl, rfl⟩
  · subst hn
    by_cases hm : b.maskFlags = GMF_ALL_VALID
    · by_cases ha : b.colorInterp = GCI_AlphaBand
      · simp [raster_copy_strategy, raster_copy_m_band, hm, ha]
      · simp [raster_copy_strategy, raster_copy_m_band, hm, ha]
    · simp [raster_copy_strategy, raster_copy_m_band, hm]
  · subst hn
    simp [raster_copy, raster_copy_m_band, hm]
  · subst hn
    simp [raster_copy, raster_copy_m_band, hm, ha]
  · subst hn
    constructor
    · simp [raster_copy_strategy, raster_copy_m_band, hm, ha]
    · simp [raster_copy, raster_copy_m_band, hm, ha]

/-- Witness for C5 at concrete inputs: the nodata argument some 0 beats
a band whose mask flags are not all-valid. -/
theorem C5_strategy_precedence_witness :
    raster_copy_strategy (some (Sample.val 0))
      ⟨0, 0, sampleBuf 1, sampleBuf 0⟩ = Strategy.with_nodata :=
  ((C5_strategy_precedence (some (Sample.val 0))
    ⟨0, 0, sampleBuf 1, sampleBuf 0⟩ ⟨0, 0, 1, 1⟩ (sampleBuf 5)).1
    (Sample.val 0) rfl).1

/-- C10: run_merge fixes its nodata variable to None, so no copy it
performs can dispatch to the nodata-aware strategy: its copy loop is
exactly a fold of mask-aware and plain copies. -/
theorem C10_nodata_strategy_unreachable :
    run_merge_nodata = none ∧
    (∀ b : BandSrc,
      raster_copy_strategy run_merge_nodata b ≠ Strategy.with_nodata) ∧
    (∀ (tiles : List MergeTile) (init : Buf),
      run_merge_copy_loop tiles init =
        tiles.foldl (fun r t =>
          match raster_copy_m_band t.band with
          | some m => raster_copy_with_mask t.band.data m t.win r
          | none => raster_copy_plain t.band.data t.win r) init) := by
  refine ⟨rfl, fun b => ?_, fun tiles init => rfl⟩
  cases hmb : raster_copy_m_band b with
  | some m => simp [raster_copy_strategy, run_merge_nodata, hmb]
  | none => simp [raster_copy_strategy, run_merge_nodata, hmb]

/-- C3: the run_merge copy loop processes tiles in input-list order,
and with the plain-copy strategy the later tile wins on the overlap:
tiles A then B leave the value of B at a pixel of both windows, B then
A leave the value of A. -/
theorem C3_order_sensitivity (A B : MergeTile) (init : Buf) (p : ℤ × ℤ)
    (hA : raster_copy_m_band A.band = none)
    (hB : raster_copy_m_band B.band = none)
    (hpA : A.win.mem p = true) (hpB : B.win.mem p = true) :
    run_merge_copy_loop [A, B] init p = B.band.data p ∧
    run_merge_copy_loop [B, A] init p = A.band.data p := by
  constructor
  · simp [run_merge_copy_loop, raster_copy, run_merge_nodata, hA, hB,
      raster_copy_plain, hpB]
  · simp [run_merge_copy_loop, raster_copy, run_merge_nodata, hA, hB,
      raster_copy_plain, hpA]

/-- Witness for C3 at concrete tiles: samples 1 then samples 2 on
overlapping windows leave 2 at the shared pixel (1,1). -/
theorem C3_order_sensitivity_witness :
    run_merge_copy_loop [mergeTileA, mergeTileB] (sampleBuf 0) (1, 1) =
      Sample.val 2 :=
  ((C3_order_sensitivity mergeTileA mergeTileB (sampleBuf 0) (1, 1)
    rfl rfl (by decide) (by decide)).1).trans rfl

/-- C7: copy_into treats every degenerate overlap as a successful
no-op: an empty world-space intersection (per the sign of the target
pixel height) or a derived pixel-window size below 1 on either axis for
either grid makes it return 1 with no raster read or write. -/
theorem C7_degenerate_overlap_noop (fi : file_info) (t : Dataset)
    (h : overlap_ulx fi t ≥ overlap_lrx fi t ∨
         (t.gt5 < 0 ∧ overlap_uly fi t ≤ overlap_lry fi t) ∨
         (t.gt5 > 0 ∧ overlap_uly fi t ≥ overlap_lry fi t) ∨
         tw_xsize_of fi t < 1 ∨ tw_ysize_of fi t < 1 ∨
         sw_xsize_of fi t < 1 ∨ sw_ysize_of fi t < 1) :
    copy_into fi t = (1, none) := by
  unfold copy_into
  split_ifs with h1 h2 h3 h4 h5
  · rfl
  · rfl
  · rfl
  · rfl
  · rfl
  · exfalso
    rcases h with h | h | h | h | h | h | h
    · exact h1 h
    · exact h2 h
    · exact h3 h
    · exact h4 (Or.inl h)
    · exact h4 (Or.inr h)
    · exact h5 (Or.inl h)
    · exact h5 (Or.inr h)

/-- Witness for C7 at a concrete input: a tile entirely to the right
of the target grid is skipped with the success return and no raster
access. -/
theorem C7_degenerate_overlap_noop_witness :
    copy_into fiFar targetD = (1, none) :=
  C7_degenerate_overlap_noop fiFar targetD (Or.inl (by
    simp only [overlap_ulx, overlap_lrx, fiFar, targetD,
      file_info.ulx, file_info.lrx, Dataset.lrx]
    norm_num))

/-- C2 as stated is false: the source-grid offsets of copy_into are
computed without the +0.1 epsilon.  At this concrete input (source grid
shifted 0.95 pixels left of the target grid) copy_into derives
sw_xoff = 0 while the claimed formula with the epsilon gives 1. -/
theorem C2_counterexample_source_offset :
    Option.map CopyWindows.sw_xoff (copy_into fiShifted targetD).2 = some 0 ∧
    specOffset (overlap_ulx fiShifted targetD) fiShifted.gt0 fiShifted.gt1 = 1 := by
  constructor
  · have h : copy_into fiShifted targetD = (0, some ⟨0, 0, 10, 10, 0, 0, 9, 10⟩) := by
      simp only [copy_into, overlap_ulx, overlap_lrx, overlap_uly, overlap_lry,
        tw_xoff_of, tw_yoff_of, tw_xsize_of, tw_ysize_of,
        sw_xoff_of, sw_yoff_of, sw_xsize_of, sw_ysize_of,
        fiShifted, targetD, file_info.ulx, file_info.uly,
        file_info.lrx, file_info.lry, Dataset.lrx, Dataset.lry, pyInt]
      norm_num
    rw [h]
    rfl
  · simp only [specOffset, overlap_ulx, fiShifted, targetD, file_info.ulx, pyInt]
    norm_num

/-- C2 amended: whenever copy_into performs a copy, the target-grid
offsets are trunc((overlapUL - origin)/pixelSize + 0.1) with the 0.1
epsilon, the source-grid offsets are trunc((overlapUL - origin)/
pixelSize) with no epsilon, and each size is trunc((overlapLR - origin)
/pixelSize + 0.5) minus that grid's own offset. -/
theorem C2_amended_pixel_windows (fi : file_info) (t : Dataset) (r : ℤ)
    (w : CopyWindows) (h : copy_into fi t = (r, some w)) :
    w.tw_xoff = specOffset (overlap_ulx fi t) t.gt0 t.gt1 ∧
    w.tw_yoff = specOffset (overlap_uly fi t) t.gt3 t.gt5 ∧
    w.tw_xsize = specSize (overlap_lrx fi t) t.gt0 t.gt1 w.tw_xoff ∧
    w.tw_ysize = specSize (overlap_lry fi t) t.gt3 t.gt5 w.tw_yoff ∧
    w.sw_xoff = pyInt ((overlap_ulx fi t - fi.gt0) / fi.gt1) ∧
    w.sw_yoff = pyInt ((overlap_uly fi t - fi.gt3) / fi.gt5) ∧
    w.sw_xsize = specSize (overlap_lrx fi t) fi.gt0 fi.gt1 w.sw_xoff ∧
    w.sw_ysize = specSize (overlap_lry fi t) fi.gt3 fi.gt5 w.sw_yoff := by
  unfold copy_into at h
  split_ifs at h with h1 h2 h3 h4 h5
  all_goals simp only [Prod.mk.injEq] at h
  · exact absurd h.2 (by simp)
  · exact absurd h.2 (by simp)
  · exact absurd h.2 (by simp)
  · exact absurd h.2 (by simp)
  · exact absurd h.2 (by simp)
  · obtain ⟨-, hw⟩ := h
    rw [← Option.some.inj hw]
    exact ⟨rfl, rfl, rfl, rfl, rfl, rfl, rfl, rfl⟩

/-- The first component of the union-extent fold is a running minimum
of ulx. -/
theorem extent_foldl_fst (l : List file_info) :
    ∀ e : ℚ × ℚ × ℚ × ℚ,
      (l.foldl extent_step e).1 = l.foldl (fun a fi => min a fi.ulx) e.1 := by
  induction l with
  | nil => intro e; rfl
  | cons b t ih => intro e; simp only [List.foldl_cons]; exact ih _

/-- The second component of the union-extent fold is a running maximum
of uly. -/
theorem extent_foldl_uly (l : List file_info) :
    ∀ e : ℚ × ℚ × ℚ × ℚ,
      (l.foldl extent_step e).2.1 = l.foldl (fun a fi => max a fi.uly) e.2.1 := by
  induction l with
  | nil => intro e; rfl
  | cons b t ih => intro e; simp only [List.foldl_cons]; exact ih _

/-- The third component of the union-extent fold is a running maximum
of lrx. -/
theorem extent_foldl_lrx (l : List file_info) :
    ∀ e : ℚ × ℚ × ℚ × ℚ,
      (l.foldl extent_step e).2.2.1 =
        l.foldl (fun a fi => max a fi.lrx) e.2.2.1 := by
  induction l with
  | nil => intro e; rfl
  | cons b t ih => intro e; simp only [List.foldl_cons]; exact ih _

/-- The fourth component of the union-extent fold is a running minimum
of lry. -/
theorem extent_foldl_lry (l : List file_info) :
    ∀ e : ℚ × ℚ × ℚ × ℚ,
      (l.foldl extent_step e).2.2.2 =
        l.foldl (fun a fi => min a fi.lry) e.2.2.2 := by
  induction l with
  | nil => intro e; rfl
  | cons b t ih => intro e; simp only [List.foldl_cons]; exact ih _

/-- A running minimum never exceeds its seed. -/
theorem foldl_min_le_init (f : file_info → ℚ) (l : List file_info) :
    ∀ a : ℚ, l.foldl (fun x g => min x (f g)) a ≤ a := by
  induction l with
  | nil => intro a; exact le_refl a
  | cons b t ih => intro a; exact le_trans (ih _) (min_le_left _ _)

/-- A running minimum is a lower bound of the visited values. -/
theorem foldl_min_le_mem (f : file_info → ℚ) (l : List file_info) :
    ∀ (a : ℚ) (fi : file_info), fi ∈ l →
      l.foldl (fun x g => min x (f g)) a ≤ f fi := by
  induction l with
  | nil => intro a fi hfi; cases hfi
  | cons b t ih =>
    intro a fi hfi
    rcases List.mem_cons.mp hfi with h | h
    · subst h
      exact le_trans (foldl_min_le_init f t _) (min_le_right _ _)
    · exact ih _ fi h

/-- A running minimum is its seed or one of the visited values. -/
theorem foldl_min_attained (f : file_info → ℚ) (l : List file_info) :
    ∀ a : ℚ, l.foldl (fun x g => min x (f g)) a = a ∨
      ∃ fi ∈ l, l.foldl (fun x g => min x (f g)) a = f fi := by
  induction l with
  | nil => intro a; exact Or.inl rfl
  | cons b t ih =>
    intro a
    rcases ih (min a (f b)) with h | ⟨fi, hmem, hfi⟩
    · rcases min_choice a (f b) with hm | hm
      · exact Or.inl (by simp only [List.foldl_cons]; rw [h, hm])
      · exact Or.inr ⟨b, List.mem_cons_self b t,
          by simp only [List.foldl_cons]; rw [h, hm]⟩
    · exact Or.inr ⟨fi, List.mem_cons_of_mem b hmem,
        by simp only [List.foldl_cons]; exact hfi⟩

/-- A running maximum never falls below its seed. -/
theorem foldl_max_init_le (f : file_info → ℚ) (l : List file_info) :
    ∀ a : ℚ, a ≤ l.foldl (fun x g => max x (f g)) a := by
  induction l with
  | nil => intro a; exact le_refl a
  | cons b t ih => intro a; exact le_trans (le_max_left _ _) (ih _)

/-- A running maximum is an upper bound of the visited values. -/
theorem foldl_max_mem_le (f : file_info → ℚ) (l : List file_info) :
    ∀ (a : ℚ) (fi : file_info), fi ∈ l →
      f fi ≤ l.foldl (fun x g => max x (f g)) a := by
  induction l with
  | nil => intro a fi hfi; cases hfi
  | cons b t ih =>
    intro a fi hfi
    rcases List.mem_cons.mp hfi with h | h
    · subst h
      exact le_trans (le_max_right _ _) (foldl_max_init_le f t _)
    · exact ih _ fi h

/-- A running maximum is its seed or one of the visited values. -/
theorem foldl_max_attained (f : file_info → ℚ) (l : List file_info) :
    ∀ a : ℚ, l.foldl (fun x g => max x (f g)) a = a ∨
      ∃ fi ∈ l, l.foldl (fun x g => max x (f g)) a = f fi := by
  induction l with
  | nil => intro a; exact Or.inl rfl
  | cons b t ih =>
    intro a
    rcases ih (max a (f b)) with h | ⟨fi, hmem, hfi⟩
    · rcases max_choice a (f b) with hm | hm
      · exact Or.inl (by simp only [List.foldl_cons]; rw [h, hm])
      · exact Or.inr ⟨b, List.mem_cons_self b t,
          by simp only [List.foldl_cons]; rw [h, hm]⟩
    · exact Or.inr ⟨fi, List.mem_cons_of_mem b hmem,
        by simp only [List.foldl_cons]; exact hfi⟩

/-- C6: run_merge plans the component-wise union extent (minimum ulx
and lry, maximum uly and lrx over all tiles, each attained by some
tile), takes the first tile's pixel sizes as the resolution, and sizes
the output with the +0.5-biased truncations; on the two tiles with
extents [0,10]x[0,10] and [5,20]x[-5,10] at pixel size 1 the planned
output covers exactly [0,20]x[-5,10]. -/
theorem C6_union_extent_plan (f0 : file_info) (rest : List file_info) :
    (∀ fi ∈ f0 :: rest,
      (run_merge_extent f0 rest).1 ≤ fi.ulx ∧
      fi.uly ≤ (run_merge_extent f0 rest).2.1 ∧
      fi.lrx ≤ (run_merge_extent f0 rest).2.2.1 ∧
      (run_merge_extent f0 rest).2.2.2 ≤ fi.lry) ∧
    (∃ a ∈ f0 :: rest, (run_merge_extent f0 rest).1 = a.ulx) ∧
    (∃ a ∈ f0 :: rest, (run_merge_extent f0 rest).2.1 = a.uly) ∧
    (∃ a ∈ f0 :: rest, (run_merge_extent f0 rest).2.2.1 = a.lrx) ∧
    (∃ a ∈ f0 :: rest, (run_merge_extent f0 rest).2.2.2 = a.lry) ∧
    run_merge_psize_x f0 = f0.gt1 ∧
    run_merge_psize_y f0 = f0.gt5 ∧
    run_merge_extent tileA [tileB] = (0, 10, 20, -5) ∧
    run_merge_xsize tileA [tileB] = 20 ∧
    run_merge_ysize tileA [tileB] = 15 ∧
    (run_merge_extent tileA [tileB]).1 +
      (run_merge_xsize tileA [tileB] : ℚ) * run_merge_psize_x tileA = 20 ∧
    (run_merge_extent tileA [tileB]).2.1 +
      (run_merge_ysize tileA [tileB] : ℚ) * run_merge_psize_y tileA = -5 := by
  have hext : run_merge_extent tileA [tileB] = (0, 10, 20, -5) := by
    simp only [run_merge_extent, extent_step, List.foldl, tileA, tileB,
      file_info.ulx, file_info.uly, file_info.lrx, file_info.lry]
    norm_num
  have hxs : run_merge_xsize tileA [tileB] = 20 := by
    simp only [run_merge_xsize, run_merge_extent, run_merge_psize_x,
      extent_step, List.foldl, tileA, tileB, file_info.ulx, file_info.uly,
      file_info.lrx, file_info.lry, pyInt]
    norm_num
  have hys : run_merge_ysize tileA [tileB] = 15 := by
    simp only [run_merge_ysize, run_merge_extent, run_merge_psize_y,
      extent_step, List.foldl, tileA, tileB, file_info.ulx, file_info.uly,
      file_info.lrx, file_info.lry, pyInt]
    norm_num
  refine ⟨fun fi hfi => ⟨?_, ?_, ?_, ?_⟩, ?_, ?_, ?_, ?_, rfl, rfl,
    hext, hxs, hys, ?_, ?_⟩
  · simp only [run_merge_extent]
    rw [extent_foldl_fst]
    exact foldl_min_le_mem file_info.ulx (f0 :: rest) _ fi hfi
  · simp only [run_merge_extent]
    rw [extent_foldl_uly]
    exact foldl_max_mem_le file_info.uly (f0 :: rest) _ fi hfi
  · simp only [run_merge_extent]
    rw [extent_foldl_lrx]
    exact foldl_max_mem_le file_info.lrx (f0 :: rest) _ fi hfi
  · simp only [run_merge_extent]
    rw [extent_foldl_lry]
    exact foldl_min_le_mem file_info.lry (f0 :: rest) _ fi hfi
  · simp only [run_merge_extent]
    rw [extent_foldl_fst]
    rcases foldl_min_attained file_info.ulx (f0 :: rest) f0.ulx with h | h
    · exact ⟨f0, List.mem_cons_self f0 rest, h⟩
    · exact h
  · simp only [run_merge_extent]
    rw [extent_foldl_uly]
    rcases foldl_max_attained file_info.uly (f0 :: rest) f0.uly with h | h
    · exact ⟨f0, List.mem_cons_self f0 rest, h⟩
    · exact h
  · simp only [run_merge_extent]
    rw [extent_foldl_lrx]
    rcases foldl_max_attained file_info.lrx (f0 :: rest) f0.lrx with h | h
    · exact ⟨f0, List.mem_cons_self f0 rest, h⟩
    · exact h
  · simp only [run_merge_extent]
    rw [extent_foldl_lry]
    rcases foldl_min_attained file_info.lry (f0 :: rest) f0.lry with h | h
    · exact ⟨f0, List.mem_cons_self f0 rest, h⟩
    · exact h
  · rw [hext, hxs]
    simp only [run_merge_psize_x, tileA]
    norm_num
  · rw [hext, hys]
    simp only [run_merge_psize_y, tileA]
    norm_num

/-- Witness for C6 at the concrete two-tile input: the planned left
edge is a lower bound of the first tile's left edge. -/
theorem C6_union_extent_plan_witness :
    (run_merge_extent tileA [tileB]).1 ≤ tileA.ulx :=
  ((C6_union_extent_plan tileA [tileB]).1 tileA
    (List.mem_cons_self tileA [tileB])).1

/-- Witness for the amended C2 at a concrete input: the shifted tile's
target-window x offset satisfies the epsilon formula. -/
theorem C2_amended_pixel_windows_witness :
    CopyWindows.tw_xoff ⟨0, 0, 10, 10, 0, 0, 9, 10⟩ =
      specOffset (overlap_ulx fiShifted targetD) targetD.gt0 targetD.gt1 :=
  (C2_amended_pixel_windows fiShifted targetD 0 ⟨0, 0, 10, 10, 0, 0, 9, 10⟩
    (by
      simp only [copy_into, overlap_ulx, overlap_lrx, overlap_uly, overlap_lry,
        tw_xoff_of, tw_yoff_of, tw_xsize_of, tw_ysize_of,
        sw_xoff_of, sw_yoff_of, sw_xsize_of, sw_ysize_of,
        fiShifted, targetD, file_info.ulx, file_info.uly,
        file_info.lrx, file_info.lry, Dataset.lrx, Dataset.lry, pyInt]
      norm_num)).1

/-- The names_to_fileinfos fold with any starting accumulator appends
exactly the openable names' descriptors in input order. -/
theorem names_to_fileinfos_go (op : String → Option file_info) :
    ∀ (names : List String) (acc : List file_info),
      names.foldl (fun acc name =>
        match op name with
        | some fi => acc ++ [fi]
        | none => acc) acc = acc ++ names.filterMap op := by
  intro names
  induction names with
  | nil => intro acc; simp
  | cons n t ih =>
    intro acc
    cases hn : op n with
    | some fi =>
      simp only [List.foldl_cons, List.filterMap_cons, hn, ih]
      simp
    | none =>
      simp only [List.foldl_cons, List.filterMap_cons, hn, ih]

/-- Splitting a name list by openability: openable plus failing counts
of names_to_fileinfos sum to the input length. -/
theorem filterMap_length_add_countP (op : String → Option file_info) :
    ∀ names : List String,
      (names.filterMap op).length +
        names.countP (fun n => (op n).isNone) = names.length := by
  intro names
  induction names with
  | nil => rfl
  | cons n t ih =>
    cases hn : op n with
    | some fi =>
      simp [List.filterMap_cons, hn, List.countP_cons]
      omega
    | none =>
      simp [List.filterMap_cons, hn, List.countP_cons]
      omega

/-- C8: names_to_fileinfos keeps exactly the openable names, in input
order, so a list of N names with M open failures yields N - M
descriptors; the planning step then succeeds on any non-empty
descriptor list, and fails (the empty subscript raising to the caller
before any output raster is touched) exactly when no name opened. -/
theorem C8_dropped_tile_resilience (op : String → Option file_info)
    (names : List String) :
    names_to_fileinfos op names = names.filterMap op ∧
    (names_to_fileinfos op names).length +
      names.countP (fun n => (op n).isNone) = names.length ∧
    (run_merge_plan (names_to_fileinfos op names) = Except.error () ↔
      names.filterMap op = []) ∧
    (∀ f0 fis, names_to_fileinfos op names = f0 :: fis →
      run_merge_plan (names_to_fileinfos op names) =
        Except.ok (mosaic_plan_of f0 fis)) := by
  have he : names_to_fileinfos op names = names.filterMap op := by
    have h := names_to_fileinfos_go op names []
    simpa [names_to_fileinfos] using h
  refine ⟨he, by rw [he]; exact filterMap_length_add_countP op names, ?_, ?_⟩
  · rw [he]
    cases names.filterMap op with
    | nil => simp [run_merge_plan]
    | cons f0 fis => simp [run_merge_plan]
  · intro f0 fis h
    rw [h]
    rfl

/-- Witness for C8 at a concrete input: one name that fails to open
leaves the planning step in the error state. -/
theorem C8_dropped_tile_resilience_witness :
    run_merge_plan (names_to_fileinfos (fun _ => none) ["a.tif"]) =
      Except.error () :=
  (C8_dropped_tile_resilience (fun _ => none) ["a.tif"]).2.2.1.mpr rfl

/-- Floor is inverse to multiplying an integer by a nonzero step and
dividing by it again. -/
theorem intCast_mul_div_floor (y : ℤ) (c : ℚ) (hc : c ≠ 0) :
    ⌊((y : ℚ) * c) / c⌋ = y := by
  rw [mul_div_cancel_right₀ _ hc, Int.floor_intCast]

/-- Ceiling is inverse to multiplying an integer by a nonzero step and
dividing by it again. -/
theorem intCast_mul_div_ceil (y : ℤ) (c : ℚ) (hc : c ≠ 0) :
    ⌈((y : ℚ) * c) / c⌉ = y := by
  rw [mul_div_cancel_right₀ _ hc, Int.ceil_intCast]

/-- C9: the pixel-grid alignment snap of run_merge is idempotent: for
any extent and nonzero pixel sizes, snapping twice gives the same four
coordinates as snapping once. -/
theorem C9_align_snap_idempotent (psize_x psize_y : ℚ) (e : ℚ × ℚ × ℚ × ℚ)
    (hx : psize_x ≠ 0) (hy : psize_y ≠ 0) :
    align_snap psize_x psize_y (align_snap psize_x psize_y e) =
      align_snap psize_x psize_y e := by
  have hy' : (-psize_y) ≠ 0 := neg_ne_zero.mpr hy
  simp only [align_snap, Prod.mk.injEq]
  refine ⟨?_, ?_, ?_, ?_⟩
  · rw [intCast_mul_div_floor _ _ hx]
  · rw [intCast_mul_div_ceil _ _ hy']
  · rw [intCast_mul_div_ceil _ _ hx]
  · rw [intCast_mul_div_floor _ _ hy']

/-- Witness for C9 at a concrete input: pixel sizes 1 and -1 and the
extent (3/2, 7/3, 5, -1). -/
theorem C9_align_snap_idempotent_witness :
    align_snap 1 (-1) (align_snap 1 (-1) (3/2, 7/3, 5, -1)) =
      align_snap 1 (-1) (3/2, 7/3, 5, -1) :=
  C9_align_snap_idempotent 1 (-1) (3/2, 7/3, 5, -1)
    (by norm_num) (by norm_num)
